import Mathlib

/-!
Verification of the exam-model builder in `exam_builder.py`.

The embedding translates the core of the script (the `Exam` class: source
splitting, metadata resolution, question building, exam assembly) into pure
Lean functions.  External collaborators stay abstract: the markdown renderer
`mkd` is an arbitrary function argument, and the two `random.shuffle` calls
are represented by explicit permutation-producing function arguments, so that
properties can be stated for every possible shuffle outcome.  Fatal
`sys.exit()` paths become `Except` errors carrying the data the code prints.
-/

/-! ## Scalar values

A small model of the YAML scalars a question block or the preamble can hold.
`pyStr` is the text coercion that `map(unicode, doc['answers'])` applies to
each answer entry, and `Y.truthy` is the Python truthiness used by
`doc.get(...)` tests and by the metadata flags. -/

inductive Y where
  | nil
  | bool (b : Bool)
  | int (n : Int)
  | str (s : String)
deriving DecidableEq, Repr

/-- Python text coercion of a scalar, as `unicode(x)` produces it. -/
def pyStr : Y → String
  | Y.nil => "None"
  | Y.bool b => if b then "True" else "False"
  | Y.int n => toString n
  | Y.str s => s

/-- Python truthiness of a scalar. -/
def Y.truthy : Y → Bool
  | Y.nil => false
  | Y.bool b => b
  | Y.int n => n != 0
  | Y.str s => s != ""

/-- Truthiness of an optional scalar: a missing value is falsy.  Used for the
three resolved metadata flags, which `_process_metadata` always makes
present. -/
def optTruthy : Option Y → Bool
  | none => false
  | some v => Y.truthy v

/-! ## Data model -/

/-- One parsed question block (the mapping `yaml.load_all` yields for one
document): the keys `_build_question` reads via `doc.get`.  A missing key is
`none`; an empty block is the record with every field `none`. -/
structure Doc where
  question : Option String
  notes : Option String
  answers : Option (List Y)
deriving DecidableEq, Repr

/-- The `Question` namedtuple: `id question notes answers correct format`.
Python uses `None` for `answers` and `correct` of open-format questions,
modelled by `Option`. -/
structure Question where
  id : Nat
  question : String
  notes : String
  answers : Option (List String)
  correct : Option (List Nat)
  format : String
deriving DecidableEq, Repr

/-- The two fatal validation paths of `_build_question`, each a `print`
followed by `sys.exit()`.  The constructor arguments carry what the print
formats into the diagnostic: the question number printed for an empty
question, and the rendered question text printed for a missing correct
answer. -/
inductive BuildError where
  | emptyQuestion (printedPos : Nat)
  | noCorrect (renderedQuestion : String)
deriving DecidableEq, Repr

/-- Exit status of the process when a fatal path is taken.  Both paths call
`sys.exit()` with no argument, which raises `SystemExit(None)`; the Python
interpreter then terminates with exit status 0. -/
def BuildError.exitCode : BuildError → Nat
  | BuildError.emptyQuestion _ => 0
  | BuildError.noCorrect _ => 0

/-! ## Static helpers of `Exam` -/

/-- Python `x.startswith('+')`: the text begins with the marker character. -/
def pyStartsWithPlus (s : String) : Bool :=
  match s.data with
  | '+' :: _ => true
  | _ => false

/-- Python `l.index(x)`: index of the first element equal to `x` (the script
only calls it on members of `l`; on a non-member this model returns
`l.length`, where CPython would raise). -/
def pyIndex (l : List String) (x : String) : Nat :=
  match l with
  | [] => 0
  | y :: ys => if y = x then 0 else pyIndex ys x + 1

/-- `Exam.get_indexes_for_answers`:
`[answers.index(x) for x in filter(lambda x: x.startswith('+'), answers)]`. -/
def get_indexes_for_answers (answers : List String) : List Nat :=
  (answers.filter (fun x => pyStartsWithPlus x)).map (fun x => pyIndex answers x)

/-- The substitution `re.sub(r'\+\ ?', '', x)` at character level: every
occurrence of `+`, together with at most one immediately following space, is
removed, scanning left to right. -/
def subPlusChars : List Char → List Char
  | [] => []
  | '+' :: ' ' :: rest => subPlusChars rest
  | '+' :: rest => subPlusChars rest
  | c :: rest => c :: subPlusChars rest

/-- `Exam.strip_keys`: `[re.sub(r'\+\ ?', '', x) for x in answers]`. -/
def strip_keys (answers : List String) : List String :=
  answers.map (fun x => String.mk (subPlusChars x.data))

/-! ## Metadata -/

/-- The preamble mapping, modelled as a partial map from key to scalar. -/
abbrev Metadata := String → Option Y

/-- Python `m.get(k, d)`. -/
def dictGet (m : Metadata) (k : String) (d : Y) : Y :=
  (m k).getD d

/-- Python `m[k] = v`. -/
def dictSet (m : Metadata) (k : String) (v : Y) : Metadata :=
  fun q => if q = k then some v else m q

/-- `Exam._process_metadata`: fill defaults for the three recognized options,
leaving every other key untouched. -/
def process_metadata (m : Metadata) : Metadata :=
  let m1 := dictSet m "shuffle-questions" (dictGet m "shuffle-questions" (Y.bool false))
  let m2 := dictSet m1 "shuffle-answers" (dictGet m1 "shuffle-answers" (Y.bool true))
  dictSet m2 "require-correct" (dictGet m2 "require-correct" (Y.bool true))

/-! ## Question building

`build_question` is `Exam._build_question` for one parsed block.  `counter`
is the value of `self.counter['questions']` before the call; the method first
increments it.  `shuffleA` stands for one invocation of `random.shuffle` on
the answer list: it is the reordering that this shuffle produces, an
arbitrary function from the callers point of view. -/

def build_question (mkd : String → String) (shuffleA : List String → List String)
    (shuffle_answers require_correct : Bool) (counter : Nat) (doc : Doc) :
    Except BuildError Question :=
  let counter := counter + 1
  if doc.question.getD "" = "" then
    Except.error (BuildError.emptyQuestion (counter + 1))
  else
    let q := mkd (doc.question.getD "")
    let notes := mkd (doc.notes.getD "")
    match doc.answers with
    | none => Except.ok (Question.mk counter q notes none none "open")
    | some ans =>
      if ans.isEmpty then
        Except.ok (Question.mk counter q notes none none "open")
      else
        let answers := ans.map pyStr
        let answers := if shuffle_answers then shuffleA answers else answers
        let correct := get_indexes_for_answers answers
        let stripped := strip_keys answers
        if correct.isEmpty && require_correct then
          Except.error (BuildError.noCorrect q)
        else
          Except.ok (Question.mk counter q notes (some stripped) (some correct) "choice")

/-- The `for doc in yaml.load_all(body): self._build_question(doc)` loop of
`Exam.build`, threading the question counter.  `shuffleA` is indexed by the
counter so each question gets its own shuffle outcome. -/
def build_questions (mkd : String → String) (shuffleA : Nat → List String → List String)
    (shuffle_answers require_correct : Bool) : Nat → List Doc → Except BuildError (List Question)
  | _, [] => Except.ok []
  | counter, doc :: docs =>
    match build_question mkd (shuffleA counter) shuffle_answers require_correct counter doc with
    | Except.error e => Except.error e
    | Except.ok q =>
      match build_questions mkd shuffleA shuffle_answers require_correct (counter + 1) docs with
      | Except.error e => Except.error e
      | Except.ok qs => Except.ok (q :: qs)

/-- `Exam.build` from the parsed preamble mapping and the parsed question
blocks onward: resolve metadata, build each question in order, then
optionally shuffle the question list (`shuffleQ` being the reordering that
`random.shuffle(self.questions)` produces).  Returns the final exam model:
the question list plus resolved metadata. -/
def build (mkd : String → String) (shuffleA : Nat → List String → List String)
    (shuffleQ : List Question → List Question) (metadataIn : Metadata) (docs : List Doc) :
    Except BuildError (List Question × Metadata) :=
  let md := process_metadata metadataIn
  match build_questions mkd shuffleA (optTruthy (md "shuffle-answers"))
      (optTruthy (md "require-correct")) 0 docs with
  | Except.error e => Except.error e
  | Except.ok qs =>
    Except.ok ((if optTruthy (md "shuffle-questions") then shuffleQ qs else qs), md)

/-- Outcome of one whole run of `build_test`: which documents were written
and whether the run aborted through a fatal error. -/
structure RunResult where
  outputs : List String
  exit : Option BuildError
deriving DecidableEq, Repr

/-- `build_test`: construct the `Exam` (which runs `build` in `__init__`)
then write the exam and the key.  When `build` hits a fatal path the
`sys.exit()` ends the process before any document is written. -/
def build_test (mkd : String → String) (shuffleA : Nat → List String → List String)
    (shuffleQ : List Question → List Question) (metadataIn : Metadata) (docs : List Doc) :
    RunResult :=
  match build mkd shuffleA shuffleQ metadataIn docs with
  | Except.error e => RunResult.mk [] (some e)
  | Except.ok _ => RunResult.mk ["exam", "key"] none

/-! ## Source splitting

`Exam.build` lines 153-155 extract the preamble and body of the raw source:
`preamble = raw.split('---')[0]` and `body = raw.replace(preamble, '')`.
Both Python string methods are embedded at character level so that they are
fully executable: `split` cuts at every non-overlapping occurrence of the
separator scanning left to right, and `replace` with an empty replacement
deletes every non-overlapping occurrence of the pattern, also left to
right. -/

/-- Does the list start with the given pattern. -/
def listStartsWith : List Char → List Char → Bool
  | [], _ => true
  | _ :: _, [] => false
  | p :: ps, c :: cs => p == c && listStartsWith ps cs

/-- Python `s.split(sep)` on character lists, fuel-indexed so that the
recursion is structural; fuel at least the length of the input makes the fuel
irrelevant. -/
def pySplitAux (sep : List Char) : Nat → List Char → List (List Char)
  | _, [] => [[]]
  | 0, l => [l]
  | fuel + 1, c :: cs =>
    if !sep.isEmpty && listStartsWith sep (c :: cs) then
      [] :: pySplitAux sep fuel ((c :: cs).drop sep.length)
    else
      match pySplitAux sep fuel cs with
      | [] => [[c]]
      | g :: gs => (c :: g) :: gs

/-- Python `s.replace(pat, '')` on character lists, fuel-indexed like
`pySplitAux`.  An empty pattern leaves the string unchanged, as in Python. -/
def pyRemoveAux (pat : List Char) : Nat → List Char → List Char
  | _, [] => []
  | 0, l => l
  | fuel + 1, c :: cs =>
    if !pat.isEmpty && listStartsWith pat (c :: cs) then
      pyRemoveAux pat fuel ((c :: cs).drop pat.length)
    else
      c :: pyRemoveAux pat fuel cs

/-- Does `pat` occur as a contiguous sublist. -/
def occursIn (pat : List Char) : List Char → Bool
  | [] => pat.isEmpty
  | c :: cs => listStartsWith pat (c :: cs) || occursIn pat cs

/-- The delimiter `'---'` that `Exam.build` splits on. -/
def dashSep : List Char := ['-', '-', '-']

/-- The split of `Exam.build`: `preamble = raw.split('---')[0]` (the list
returned by Python split is never empty, so indexing 0 is its head) and
`body = raw.replace(preamble, '')`. -/
def buildSplitChars (raw : List Char) : List Char × List Char :=
  let preamble := (pySplitAux dashSep raw.length raw).headD []
  (preamble, pyRemoveAux preamble raw.length raw)

/-- String-level wrapper of `buildSplitChars`: the (preamble, body) pair that
`Exam.build` computes from the raw source text. -/
def buildSplit (raw : String) : String × String :=
  (String.mk (buildSplitChars raw.data).1, String.mk (buildSplitChars raw.data).2)

/-! Spec-side definitions for the claim about source splitting, written from
the words of the specification rather than from the code, for comparison:
the source is split at delimiter lines, a line consisting solely of `---`;
the segment before the first delimiter line is the preamble. -/

/-- Split a character list at every occurrence of a separator character. -/
def splitOnChar (sep : Char) : List Char → List (List Char)
  | [] => [[]]
  | c :: cs =>
    if c == sep then [] :: splitOnChar sep cs
    else
      match splitOnChar sep cs with
      | [] => [[c]]
      | g :: gs => (c :: g) :: gs

/-- Group a list of lines into the segments delimited by lines that consist
solely of `---`. -/
def splitAtDelimLines (lines : List String) : List (List String) :=
  lines.foldr
    (fun line acc =>
      if line = "---" then [] :: acc
      else
        match acc with
        | [] => [[line]]
        | g :: gs => (line :: g) :: gs)
    [[]]

/-- The delimiter-line segments of a raw source text, each segment given by
its lines. -/
def specSegments (raw : String) : List (List String) :=
  splitAtDelimLines ((splitOnChar '\n' raw.data).map (fun g => String.mk g))

/-- The preamble according to the specification: the lines of the segment
before the first delimiter line. -/
def specPreambleLines (raw : String) : List String :=
  (specSegments raw).headD []

/-- The lines of a string, for comparing code output against the spec-side
segments. -/
def linesOf (s : String) : List String :=
  (splitOnChar '\n' s.data).map (fun g => String.mk g)

/-! Spec-side definition for the correct-index claim, written from the words
of the specification: collect the index of every entry whose text begins with
the marker, one index per entry, in order of appearance. -/

/-- Indexes (starting at `i`) of the marked entries of a list. -/
def markedIndexesFrom : Nat → List String → List Nat
  | _, [] => []
  | i, x :: xs =>
    if pyStartsWithPlus x then i :: markedIndexesFrom (i + 1) xs
    else markedIndexesFrom (i + 1) xs

/-- The position of every marked entry of an answer list, in order of
appearance. -/
def markedIndexes (answers : List String) : List Nat :=
  markedIndexesFrom 0 answers

/-! ## Lemmas about the splitting machinery -/

theorem listStartsWith_self_append (s t : List Char) : listStartsWith s (s ++ t) = true := by
  induction s with
  | nil => rfl
  | cons c cs ih => simp [listStartsWith, ih]

theorem pySplitAux_ne_nil (sep : List Char) (fuel : Nat) (l : List Char) :
    pySplitAux sep fuel l ≠ [] := by
  match fuel, l with
  | _, [] => simp [pySplitAux]
  | 0, c :: cs => simp [pySplitAux]
  | fuel + 1, c :: cs =>
    unfold pySplitAux
    split
    · simp
    · split <;> simp

theorem pySplitAux_head_of_no_dash (p b : List Char) :
    ∀ fuel, (p ++ dashSep ++ b).length ≤ fuel → '-' ∉ p →
      (pySplitAux dashSep fuel (p ++ dashSep ++ b)).headD [] = p := by
  induction p with
  | nil =>
    intro fuel hfuel _
    match fuel with
    | 0 => simp [dashSep] at hfuel
    | fuel + 1 =>
      show (pySplitAux dashSep (fuel + 1) ('-' :: ('-' :: '-' :: b))).headD [] = []
      unfold pySplitAux
      rw [if_pos]
      · rfl
      · simp [dashSep, listStartsWith]
  | cons c p ih =>
    intro fuel hfuel hdash
    have hc : c ≠ '-' := fun h => hdash (h ▸ List.mem_cons_self c p)
    have hp : '-' ∉ p := fun h => hdash (List.mem_cons_of_mem c h)
    match fuel with
    | 0 => simp at hfuel
    | fuel + 1 =>
      have hrest : (p ++ dashSep ++ b).length ≤ fuel := by
        simp at hfuel ⊢; omega
      show (pySplitAux dashSep (fuel + 1) (c :: (p ++ dashSep ++ b))).headD [] = c :: p
      unfold pySplitAux
      rw [if_neg]
      · cases heq : pySplitAux dashSep fuel (p ++ dashSep ++ b) with
        | nil => exact absurd heq (pySplitAux_ne_nil dashSep fuel (p ++ dashSep ++ b))
        | cons g gs =>
          have := ih fuel hrest hp
          rw [heq] at this
          simp [List.headD] at this ⊢
          exact this
      · have : ('-' == c) = false := beq_eq_false_iff_ne.mpr (Ne.symm hc)
        simp [dashSep, listStartsWith, this]

theorem pyRemoveAux_no_occ (pat : List Char) :
    ∀ (l : List Char) (fuel : Nat), occursIn pat l = false → pyRemoveAux pat fuel l = l := by
  intro l
  induction l with
  | nil => intro fuel _; cases fuel <;> rfl
  | cons c cs ih =>
    intro fuel hocc
    unfold occursIn at hocc
    rw [Bool.or_eq_false_iff] at hocc
    match fuel with
    | 0 => rfl
    | fuel + 1 =>
      unfold pyRemoveAux
      rw [if_neg]
      · rw [ih fuel hocc.2]
      · simp [hocc.1]

theorem drop_length_append (u v : List Char) : (u ++ v).drop u.length = v :=
  List.drop_left u v

theorem pyRemoveAux_prefix_no_reocc (pat rest : List Char) (hne : pat ≠ [])
    (hocc : occursIn pat rest = false) (fuel : Nat) (hfuel : (pat ++ rest).length ≤ fuel) :
    pyRemoveAux pat fuel (pat ++ rest) = rest := by
  match pat, hne with
  | a :: pa, _ =>
    match fuel with
    | 0 => simp at hfuel
    | fuel + 1 =>
      show pyRemoveAux (a :: pa) (fuel + 1) (a :: (pa ++ rest)) = rest
      unfold pyRemoveAux
      rw [if_pos]
      · have hdrop : (a :: (pa ++ rest)).drop (a :: pa).length = rest :=
          drop_length_append (a :: pa) rest
        rw [hdrop]
        exact pyRemoveAux_no_occ (a :: pa) rest fuel hocc
      · have : listStartsWith (a :: pa) ((a :: pa) ++ rest) = true :=
          listStartsWith_self_append (a :: pa) rest
        simpa using this

/-! ## Lemmas about answer indexing and stripping -/

theorem pyIndex_cons_self (x : String) (l : List String) : pyIndex (x :: l) x = 0 := by
  simp [pyIndex]

theorem pyIndex_cons_ne (y x : String) (l : List String) (h : y ≠ x) :
    pyIndex (y :: l) x = pyIndex l x + 1 := by
  simp [pyIndex, h]

theorem pyIndex_lt_length (l : List String) (x : String) (h : x ∈ l) :
    pyIndex l x < l.length := by
  induction l with
  | nil => cases h
  | cons y ys ih =>
    by_cases hyx : y = x
    · subst hyx
      simp [pyIndex]
    · rw [pyIndex_cons_ne y x ys hyx]
      have hx : x ∈ ys := by
        rcases List.mem_cons.mp h with h1 | h1
        · exact absurd h1.symm hyx
        · exact h1
      have := ih hx
      simp only [List.length_cons]
      omega

theorem get_indexes_mem_lt (l : List String) (i : Nat)
    (h : i ∈ get_indexes_for_answers l) : i < l.length := by
  unfold get_indexes_for_answers at h
  rcases List.mem_map.mp h with ⟨x, hx, rfl⟩
  exact pyIndex_lt_length l x (List.mem_of_mem_filter hx)

theorem get_indexes_eq_nil_iff (l : List String) :
    get_indexes_for_answers l = [] ↔ ∀ x ∈ l, pyStartsWithPlus x = false := by
  unfold get_indexes_for_answers
  rw [List.map_eq_nil_iff, List.filter_eq_nil_iff]
  simp

theorem strip_keys_length (l : List String) : (strip_keys l).length = l.length := by
  simp [strip_keys]

theorem markedIndexesFrom_cons (i : Nat) (x : String) (xs : List String) :
    markedIndexesFrom i (x :: xs) =
      if pyStartsWithPlus x then i :: markedIndexesFrom (i + 1) xs
      else markedIndexesFrom (i + 1) xs := rfl

theorem markedIndexesFrom_succ (l : List String) :
    ∀ i, markedIndexesFrom (i + 1) l = (markedIndexesFrom i l).map (fun n => n + 1) := by
  induction l with
  | nil => intro i; rfl
  | cons x xs ih =>
    intro i
    unfold markedIndexesFrom
    by_cases h : pyStartsWithPlus x = true
    · simp [h, ih (i + 1)]
    · simp [h, ih (i + 1)]

/-! ## Lemmas about question building -/

theorem build_question_id (mkd : String → String) (shuffleA : List String → List String)
    (sa rc : Bool) (c : Nat) (d : Doc) (q : Question)
    (h : build_question mkd shuffleA sa rc c d = Except.ok q) : q.id = c + 1 := by
  simp only [build_question] at h
  split at h
  · simp at h
  · split at h
    · rw [Except.ok.injEq] at h
      rw [← h]
    · split at h
      · rw [Except.ok.injEq] at h
        rw [← h]
      · split at h <;> split at h <;>
          first
            | (rw [Except.ok.injEq] at h; rw [← h])
            | simp at h

theorem build_questions_ids (mkd : String → String) (shuffleA : Nat → List String → List String)
    (sa rc : Bool) (docs : List Doc) :
    ∀ (c : Nat) (qs : List Question),
      build_questions mkd shuffleA sa rc c docs = Except.ok qs →
      qs.map Question.id = List.range' (c + 1) docs.length ∧ qs.length = docs.length := by
  induction docs with
  | nil =>
    intro c qs h
    simp only [build_questions, Except.ok.injEq] at h
    rw [← h]
    simp [List.range']
  | cons d ds ih =>
    intro c qs h
    simp only [build_questions] at h
    cases hbq : build_question mkd (shuffleA c) sa rc c d with
    | error e => rw [hbq] at h; simp at h
    | ok q =>
      rw [hbq] at h
      cases hrest : build_questions mkd shuffleA sa rc (c + 1) ds with
      | error e => rw [hrest] at h; simp at h
      | ok qs2 =>
        rw [hrest, Except.ok.injEq] at h
        obtain ⟨h1, h2⟩ := ih (c + 1) qs2 hrest
        rw [← h]
        constructor
        · simp only [List.map_cons, List.length_cons, List.range'_succ]
          rw [build_question_id mkd (shuffleA c) sa rc c d q hbq, h1]
        · simp [h2]

theorem build_question_shuffle_irrelevant (mkd : String → String)
    (s1 s2 : List String → List String) (rc : Bool) (c : Nat) (d : Doc) :
    build_question mkd s1 false rc c d = build_question mkd s2 false rc c d := by
  simp [build_question]

theorem build_questions_shuffle_irrelevant (mkd : String → String)
    (s1 s2 : Nat → List String → List String) (rc : Bool) (docs : List Doc) :
    ∀ c, build_questions mkd s1 false rc c docs = build_questions mkd s2 false rc c docs := by
  induction docs with
  | nil => intro c; rfl
  | cons d ds ih =>
    intro c
    simp only [build_questions]
    rw [build_question_shuffle_irrelevant mkd (s1 c) (s2 c) rc c d, ih (c + 1)]

/-! ## Claims -/

/-- C1, counterexample.  The claim says the split happens at delimiter lines
(a line consisting solely of `---`) and that an occurrence of `---` that is
not a whole line does not affect the split.  On the source
`title: a---b\n---\nquestion: q\n` the specified preamble segment is the
single line `title: a---b`, but the code cuts at the first occurrence of the
substring `---`, yielding the preamble `title: a`. -/
theorem C1_split_counterexample :
    (buildSplit "title: a---b\n---\nquestion: q\n").1 = "title: a" ∧
    specPreambleLines "title: a---b\n---\nquestion: q\n" = ["title: a---b"] ∧
    linesOf (buildSplit "title: a---b\n---\nquestion: q\n").1 = ["title: a"] ∧
    (["title: a"] : List String) ≠ ["title: a---b"] := by
  decide

/-- C1, amended.  The code takes as preamble the text before the first
occurrence of the substring `---` anywhere in the source (not only whole
delimiter lines), and as body the source with every occurrence of the
preamble text deleted.  When the preamble contains no `-` character and its
text does not reoccur from the first delimiter onward, the split is
positional: for a source of the shape `preamble ++ "---" ++ rest`, the
computed preamble is exactly `preamble` and the computed body is exactly
`"---" ++ rest`, which the YAML document loader then separates at delimiter
lines into the question blocks. -/
theorem C1_amended_split (p b : List Char) (h1 : '-' ∉ p)
    (h2 : occursIn p (dashSep ++ b) = false) :
    buildSplitChars (p ++ dashSep ++ b) = (p, dashSep ++ b) := by
  have hp : p ≠ [] := by
    intro hpe
    subst hpe
    simp [occursIn, listStartsWith, dashSep] at h2
  simp only [buildSplitChars]
  rw [pySplitAux_head_of_no_dash p b _ (Nat.le_refl _) h1]
  rw [List.append_assoc p dashSep b]
  rw [pyRemoveAux_prefix_no_reocc p (dashSep ++ b) hp h2 _ (Nat.le_refl _)]

/-- Witness for the amended C1 at a concrete source: preamble `title: x\n`,
body `---\nquestion: q\n`. -/
theorem C1_amended_split_witness :
    ('-' ∉ ("title: x\n" : String).data ∧
      occursIn ("title: x\n" : String).data (dashSep ++ ("\nquestion: q\n" : String).data) =
        false) ∧
    buildSplitChars
        (("title: x\n" : String).data ++ dashSep ++ ("\nquestion: q\n" : String).data) =
      (("title: x\n" : String).data, dashSep ++ ("\nquestion: q\n" : String).data) :=
  ⟨⟨by decide, by decide⟩, C1_amended_split _ _ (by decide) (by decide)⟩

/-- C2.  The claim says the diagnostic for a missing or empty `question`
field identifies the 1-based position of the failing block.  The code
increments the per-build counter first (so after the increment the counter
already equals the 1-based position) and then prints `counter + 1`: for a
source whose first question block is empty, the printed number is 2 although
the block is at position 1. -/
theorem C2_empty_question_position_off_by_one :
    build_question (fun s => s) (fun l => l) false true 0 (Doc.mk none none none) =
      Except.error (BuildError.emptyQuestion 2) ∧
    build_question (fun s => s) (fun l => l) false true 0 (Doc.mk (some "") none none) =
      Except.error (BuildError.emptyQuestion 2) ∧
    (2 : Nat) ≠ 1 :=
  ⟨rfl, rfl, by decide⟩

/-- C3, counterexample.  The claim says the correct-index collection contains
the post-shuffle index of each marked entry, one index per marked entry, even
when entries have identical text.  With two identical marked answers `+a`,
`answers.index` returns the first occurrence both times: the code yields
`[0, 0]` instead of the specified `[0, 1]`. -/
theorem C3_duplicate_marked_counterexample :
    get_indexes_for_answers ["+a", "+a"] = [0, 0] ∧
    markedIndexes ["+a", "+a"] = [0, 1] ∧
    ([0, 0] : List Nat) ≠ [0, 1] := by
  decide

/-- C3, amended.  Each marked entry contributes the index of the first entry
whose text equals its own, so duplicate marked texts repeat the first
occurrence index.  Provided no two marked entries have identical text, the
computed collection is exactly the index of each entry whose text begins with
`+`, one index per marked entry, in order of appearance. -/
theorem C3_correct_indexes_of_distinct_marked (answers : List String)
    (h : (answers.filter (fun x => pyStartsWithPlus x)).Nodup) :
    get_indexes_for_answers answers = markedIndexes answers := by
  induction answers with
  | nil => rfl
  | cons a l ih =>
    by_cases hpa : pyStartsWithPlus a = true
    · have hfil : (a :: l).filter (fun x => pyStartsWithPlus x) =
          a :: l.filter (fun x => pyStartsWithPlus x) := by
        simp [List.filter_cons, hpa]
      rw [hfil] at h
      obtain ⟨hnotmem, hnd⟩ := List.nodup_cons.mp h
      unfold get_indexes_for_answers
      rw [hfil, List.map_cons, pyIndex_cons_self]
      have hmap : (l.filter (fun x => pyStartsWithPlus x)).map (fun x => pyIndex (a :: l) x) =
          (l.filter (fun x => pyStartsWithPlus x)).map (fun x => pyIndex l x + 1) :=
        List.map_congr_left (fun x hx =>
          pyIndex_cons_ne a x l (fun hax => hnotmem (hax ▸ hx)))
      rw [hmap]
      have hcomp : (l.filter (fun x => pyStartsWithPlus x)).map (fun x => pyIndex l x + 1) =
          ((l.filter (fun x => pyStartsWithPlus x)).map (fun x => pyIndex l x)).map
            (fun n => n + 1) := by
        rw [List.map_map]
        rfl
      rw [hcomp]
      have hih := ih hnd
      unfold get_indexes_for_answers at hih
      rw [hih]
      show 0 :: (markedIndexes l).map (fun n => n + 1) = markedIndexes (a :: l)
      unfold markedIndexes
      rw [markedIndexesFrom_cons, if_pos hpa, markedIndexesFrom_succ l 0]
    · have hpaf : pyStartsWithPlus a = false := by simpa using hpa
      have hfil : (a :: l).filter (fun x => pyStartsWithPlus x) =
          l.filter (fun x => pyStartsWithPlus x) := by
        simp [List.filter_cons, hpaf]
      rw [hfil] at h
      unfold get_indexes_for_answers
      rw [hfil]
      have hmap : (l.filter (fun x => pyStartsWithPlus x)).map (fun x => pyIndex (a :: l) x) =
          (l.filter (fun x => pyStartsWithPlus x)).map (fun x => pyIndex l x + 1) :=
        List.map_congr_left (fun x hx =>
          pyIndex_cons_ne a x l (fun hax => by
            rw [← hax] at hx
            exact absurd (List.mem_filter.mp hx).2 (by simp [hpaf])))
      rw [hmap]
      have hcomp : (l.filter (fun x => pyStartsWithPlus x)).map (fun x => pyIndex l x + 1) =
          ((l.filter (fun x => pyStartsWithPlus x)).map (fun x => pyIndex l x)).map
            (fun n => n + 1) := by
        rw [List.map_map]
        rfl
      rw [hcomp]
      have hih := ih h
      unfold get_indexes_for_answers at hih
      rw [hih]
      show (markedIndexes l).map (fun n => n + 1) = markedIndexes (a :: l)
      unfold markedIndexes
      rw [markedIndexesFrom_cons, if_neg hpa, markedIndexesFrom_succ l 0]

/-- Witness for the amended C3: distinct marked entries in a four-answer
list give exactly the marked positions, in order. -/
theorem C3_correct_indexes_witness :
    ((["3", "+4", "5", "+6"].filter (fun x => pyStartsWithPlus x)).Nodup) ∧
    get_indexes_for_answers ["3", "+4", "5", "+6"] = markedIndexes ["3", "+4", "5", "+6"] ∧
    markedIndexes ["3", "+4", "5", "+6"] = [1, 3] :=
  ⟨by decide, C3_correct_indexes_of_distinct_marked _ (by decide), by decide⟩

/-- C4.  The claim says stripping removes only a single leading `+` (plus at
most one following space) and leaves an answer that does not begin with `+`
unchanged.  The code applies `re.sub` globally, so the unmarked answer `2+2`
is displayed as `22`, and a doubled marker `++x` loses both characters; the
well-formed marked answer `+ 4` is stripped as specified. -/
theorem C4_interior_marker_also_stripped :
    strip_keys ["2+2", "+ 4", "++x"] = ["22", "4", "x"] ∧
    ("22" : String) ≠ "2+2" := by
  constructor
  · rfl
  · decide

/-- Unfolding of `build_question` on the choice path: a non-empty question
and a non-empty answer list reach the correct-index check. -/
theorem build_question_choice_eq (mkd : String → String) (shuffleA : List String → List String)
    (sa rc : Bool) (c : Nat) (d : Doc) (ans : List Y)
    (hq : d.question.getD "" ≠ "") (hans : d.answers = some ans) (hne : ans ≠ []) :
    build_question mkd shuffleA sa rc c d =
      if (get_indexes_for_answers
            (if sa then shuffleA (ans.map pyStr) else ans.map pyStr)).isEmpty && rc then
        Except.error (BuildError.noCorrect (mkd (d.question.getD "")))
      else
        Except.ok (Question.mk (c + 1) (mkd (d.question.getD "")) (mkd (d.notes.getD ""))
          (some (strip_keys (if sa then shuffleA (ans.map pyStr) else ans.map pyStr)))
          (some (get_indexes_for_answers
            (if sa then shuffleA (ans.map pyStr) else ans.map pyStr)))
          "choice") := by
  unfold build_question
  rw [hans, if_neg hq]
  cases ans with
  | nil => exact absurd rfl hne
  | cons a as => rfl

/-- C5.  A successful build of N question blocks yields exactly N Questions
whose ids are 1..N, assigned in source order; enabling question shuffling
only permutes the final collection, leaving each Question value (id,
question, notes, answers, correct, format) unchanged. -/
theorem C5_ids_contiguous_and_shuffle_stable
    (mkd : String → String) (shuffleA : Nat → List String → List String)
    (shuffleQ : List Question → List Question) (md : Metadata) (docs : List Doc)
    (qs : List Question) (mdOut : Metadata)
    (hshQ : ∀ l, (shuffleQ l).Perm l)
    (h : build mkd shuffleA shuffleQ md docs = Except.ok (qs, mdOut)) :
    ∃ qs0 : List Question,
      build_questions mkd shuffleA (optTruthy (process_metadata md "shuffle-answers"))
          (optTruthy (process_metadata md "require-correct")) 0 docs = Except.ok qs0 ∧
      qs0.map Question.id = List.range' 1 docs.length ∧
      qs0.length = docs.length ∧
      qs.Perm qs0 := by
  simp only [build] at h
  split at h
  next e heq => simp at h
  next qs0 heq =>
    rw [Except.ok.injEq, Prod.mk.injEq] at h
    obtain ⟨hq, hmd⟩ := h
    obtain ⟨h1, h2⟩ := build_questions_ids mkd shuffleA _ _ docs 0 qs0 heq
    refine ⟨qs0, heq, h1, h2, ?_⟩
    rw [← hq]
    by_cases hf : optTruthy (process_metadata md "shuffle-questions") = true
    · rw [if_pos hf]
      exact hshQ qs0
    · rw [if_neg hf]

/-- Witness for C5 on a concrete two-question source with question shuffling
enabled: the shuffled collection is a permutation of the source-order
collection whose ids are exactly 1, 2. -/
theorem C5_witness :
    build (fun s => s) (fun _ l => l) List.reverse
        (fun k => if k = "shuffle-questions" then some (Y.bool true) else none)
        [Doc.mk (some "a") none none, Doc.mk (some "b") none none] =
      Except.ok ([Question.mk 2 "b" "" none none "open", Question.mk 1 "a" "" none none "open"],
        process_metadata
          (fun k => if k = "shuffle-questions" then some (Y.bool true) else none)) ∧
    ∃ qs0 : List Question,
      build_questions (fun s => s) (fun _ l => l)
          (optTruthy (process_metadata
            (fun k => if k = "shuffle-questions" then some (Y.bool true) else none)
            "shuffle-answers"))
          (optTruthy (process_metadata
            (fun k => if k = "shuffle-questions" then some (Y.bool true) else none)
            "require-correct")) 0
          [Doc.mk (some "a") none none, Doc.mk (some "b") none none] = Except.ok qs0 ∧
      qs0.map Question.id =
        List.range' 1 [Doc.mk (some "a") none none, Doc.mk (some "b") none none].length ∧
      qs0.length = [Doc.mk (some "a") none none, Doc.mk (some "b") none none].length ∧
      List.Perm [Question.mk 2 "b" "" none none "open", Question.mk 1 "a" "" none none "open"] qs0 :=
  ⟨rfl, C5_ids_contiguous_and_shuffle_stable _ _ _ _ _ _ _
    (fun l => List.reverse_perm l) rfl⟩

/-- C6.  Metadata resolution gives each of the three recognized options the
author value when the key is present and otherwise its default
(`shuffle-questions` false, `shuffle-answers` true, `require-correct` true),
and maps every other key to its original value unchanged. -/
theorem C6_metadata_resolution (m : Metadata) :
    (process_metadata m) "shuffle-questions" =
      some ((m "shuffle-questions").getD (Y.bool false)) ∧
    (process_metadata m) "shuffle-answers" =
      some ((m "shuffle-answers").getD (Y.bool true)) ∧
    (process_metadata m) "require-correct" =
      some ((m "require-correct").getD (Y.bool true)) ∧
    ∀ k : String, k ≠ "shuffle-questions" → k ≠ "shuffle-answers" → k ≠ "require-correct" →
      (process_metadata m) k = m k := by
  refine ⟨?_, ?_, ?_, ?_⟩
  · simp [process_metadata, dictSet, dictGet]
  · simp [process_metadata, dictSet, dictGet]
  · simp [process_metadata, dictSet, dictGet]
  · intro k h1 h2 h3
    simp only [process_metadata, dictSet, dictGet]
    rw [if_neg h3, if_neg h2, if_neg h1]

/-- Witness for C6 on a concrete preamble that sets `shuffle-answers` to
false and a pass-through `title`: the author value wins, the unset options
get their defaults, and `title` is unchanged. -/
theorem C6_witness :
    process_metadata
        (fun k => if k = "shuffle-answers" then some (Y.bool false)
          else if k = "title" then some (Y.str "Exam 1") else none) "title" =
      (fun k : String => if k = "shuffle-answers" then some (Y.bool false)
        else if k = "title" then some (Y.str "Exam 1") else none) "title" ∧
    process_metadata
        (fun k => if k = "shuffle-answers" then some (Y.bool false)
          else if k = "title" then some (Y.str "Exam 1") else none) "shuffle-answers" =
      some (Y.bool false) :=
  ⟨(C6_metadata_resolution _).2.2.2 "title" (by decide) (by decide) (by decide),
    (C6_metadata_resolution _).2.1⟩

/-- C7.  For a record with a non-empty question and a non-empty answer list,
the build fails fatally with the rendered question text exactly when no
answer entry is marked correct and `require-correct` is enabled; with
`require-correct` disabled the same record becomes a choice-format Question
with an empty correct-index collection. -/
theorem C7_require_correct_failure_iff
    (mkd : String → String) (shuffleA : List String → List String)
    (sa : Bool) (counter : Nat) (doc : Doc) (ans : List Y)
    (hq : doc.question.getD "" ≠ "")
    (hans : doc.answers = some ans) (hne : ans ≠ [])
    (hperm : ∀ l, (shuffleA l).Perm l) :
    (build_question mkd shuffleA sa true counter doc =
        Except.error (BuildError.noCorrect (mkd (doc.question.getD ""))) ↔
      ∀ a ∈ ans, pyStartsWithPlus (pyStr a) = false) ∧
    ((∀ a ∈ ans, pyStartsWithPlus (pyStr a) = false) →
      build_question mkd shuffleA sa false counter doc =
        Except.ok (Question.mk (counter + 1) (mkd (doc.question.getD ""))
          (mkd (doc.notes.getD ""))
          (some (strip_keys (if sa then shuffleA (ans.map pyStr) else ans.map pyStr)))
          (some []) "choice")) := by
  have hmem : ∀ x, x ∈ (if sa then shuffleA (ans.map pyStr) else ans.map pyStr) ↔
      x ∈ ans.map pyStr := by
    intro x
    by_cases hsa : sa = true
    · rw [if_pos hsa]
      exact (hperm (ans.map pyStr)).mem_iff
    · rw [if_neg hsa]
  have hnil : get_indexes_for_answers
        (if sa then shuffleA (ans.map pyStr) else ans.map pyStr) = [] ↔
      ∀ a ∈ ans, pyStartsWithPlus (pyStr a) = false := by
    rw [get_indexes_eq_nil_iff]
    constructor
    · intro hL a ha
      exact hL (pyStr a) ((hmem (pyStr a)).mpr (List.mem_map_of_mem pyStr ha))
    · intro hA x hxL
      rcases List.mem_map.mp ((hmem x).mp hxL) with ⟨a, ha, rfl⟩
      exact hA a ha
  constructor
  · rw [build_question_choice_eq mkd shuffleA sa true counter doc ans hq hans hne]
    by_cases hE : (get_indexes_for_answers
        (if sa then shuffleA (ans.map pyStr) else ans.map pyStr)).isEmpty = true
    · rw [if_pos (by simp [hE])]
      constructor
      · intro _
        exact hnil.mp (List.isEmpty_iff.mp hE)
      · intro _
        rfl
    · rw [if_neg (by simp [hE])]
      constructor
      · intro heq
        exact absurd heq (by simp)
      · intro hA
        have : (get_indexes_for_answers
            (if sa then shuffleA (ans.map pyStr) else ans.map pyStr)).isEmpty = true := by
          rw [hnil.mpr hA]
          rfl
        exact absurd this hE
  · intro hA
    rw [build_question_choice_eq mkd shuffleA sa false counter doc ans hq hans hne]
    rw [hnil.mpr hA]
    rw [if_neg (by simp)]

/-- Witness for C7 on the concrete record `question: q; answers: [a, b]`
with a reversing answer shuffle: with `require-correct` enabled the build
fails with the rendered question text, since neither answer is marked. -/
theorem C7_witness :
    (Doc.mk (some "q") none (some [Y.str "a", Y.str "b"])).question.getD "" ≠ "" ∧
    (∀ a ∈ [Y.str "a", Y.str "b"], pyStartsWithPlus (pyStr a) = false) ∧
    build_question (fun s => s) List.reverse true true 0
        (Doc.mk (some "q") none (some [Y.str "a", Y.str "b"])) =
      Except.error (BuildError.noCorrect "q") :=
  ⟨by decide, by decide,
    (C7_require_correct_failure_iff (fun s => s) List.reverse true 0
        (Doc.mk (some "q") none (some [Y.str "a", Y.str "b"])) [Y.str "a", Y.str "b"]
        (by decide) rfl (by decide) (fun l => List.reverse_perm l)).1.mpr (by decide)⟩

/-- C8.  With both shuffles disabled in the resolved metadata, the build is
deterministic: two runs over the same source differing only in their shuffle
randomness produce identical exam models. -/
theorem C8_deterministic_without_shuffles (mkd : String → String)
    (s1 s2 : Nat → List String → List String) (q1 q2 : List Question → List Question)
    (md : Metadata) (docs : List Doc)
    (h1 : optTruthy (process_metadata md "shuffle-questions") = false)
    (h2 : optTruthy (process_metadata md "shuffle-answers") = false) :
    build mkd s1 q1 md docs = build mkd s2 q2 md docs := by
  simp only [build, h1, h2, Bool.false_eq_true, if_false]
  rw [build_questions_shuffle_irrelevant mkd s1 s2 _ docs 0]

/-- Witness for C8: the same two-question source built once with reversing
shuffles and once with identity shuffles, both disabled by the preamble,
gives identical results. -/
theorem C8_witness :
    optTruthy (process_metadata
      (fun k => if k = "shuffle-answers" then some (Y.bool false) else none)
      "shuffle-questions") = false ∧
    optTruthy (process_metadata
      (fun k => if k = "shuffle-answers" then some (Y.bool false) else none)
      "shuffle-answers") = false ∧
    build (fun s => s) (fun _ l => l.reverse) List.reverse
        (fun k => if k = "shuffle-answers" then some (Y.bool false) else none)
        [Doc.mk (some "q") none (some [Y.str "+a", Y.str "b"])] =
      build (fun s => s) (fun _ l => l) (fun l => l)
        (fun k => if k = "shuffle-answers" then some (Y.bool false) else none)
        [Doc.mk (some "q") none (some [Y.str "+a", Y.str "b"])] :=
  ⟨by decide, by decide,
    C8_deterministic_without_shuffles (fun s => s) (fun _ l => l.reverse) (fun _ l => l)
      List.reverse (fun l => l)
      (fun k => if k = "shuffle-answers" then some (Y.bool false) else none)
      [Doc.mk (some "q") none (some [Y.str "+a", Y.str "b"])] (by decide) (by decide)⟩

/-- C9, counterexample.  The claim says a fatal validation failure
terminates the process with a non-zero-equivalent abnormal exit.  On a
source whose only question block is empty, the build does abort with a
diagnostic and writes no documents, but both fatal paths call `sys.exit()`
with no argument, so the recorded process exit status is 0, not non-zero. -/
theorem C9_exit_status_counterexample :
    build (fun s => s) (fun _ l => l) (fun l => l) (fun _ => none) [Doc.mk none none none] =
      Except.error (BuildError.emptyQuestion 2) ∧
    (BuildError.emptyQuestion 2).exitCode = 0 ∧
    (build_test (fun s => s) (fun _ l => l) (fun l => l) (fun _ => none)
        [Doc.mk none none none]).outputs = [] :=
  ⟨rfl, rfl, rfl⟩

/-- C9, amended.  Every fatal validation failure (empty question, or missing
required correct answer) prints its diagnostic, terminates the run via
`SystemExit` and produces no output documents; the resulting process exit
status however is 0 (`sys.exit()` is called with no argument), not a
non-zero code. -/
theorem C9_fatal_aborts_without_output_status_zero (mkd : String → String)
    (shuffleA : Nat → List String → List String) (shuffleQ : List Question → List Question)
    (md : Metadata) (docs : List Doc) (e : BuildError)
    (h : build mkd shuffleA shuffleQ md docs = Except.error e) :
    (build_test mkd shuffleA shuffleQ md docs).outputs = [] ∧
    (build_test mkd shuffleA shuffleQ md docs).exit = some e ∧
    e.exitCode = 0 := by
  simp only [build_test, h]
  refine ⟨trivial, trivial, ?_⟩
  cases e <;> rfl

/-- Witness for the amended C9: a choice question with no marked answer
under the default `require-correct` aborts the run, writes nothing, and the
exit status is 0. -/
theorem C9_fatal_abort_witness :
    build (fun s => s) (fun _ l => l) (fun l => l) (fun _ => none)
        [Doc.mk (some "q") none (some [Y.str "a"])] =
      Except.error (BuildError.noCorrect "q") ∧
    ((build_test (fun s => s) (fun _ l => l) (fun l => l) (fun _ => none)
        [Doc.mk (some "q") none (some [Y.str "a"])]).outputs = [] ∧
      (build_test (fun s => s) (fun _ l => l) (fun l => l) (fun _ => none)
        [Doc.mk (some "q") none (some [Y.str "a"])]).exit =
          some (BuildError.noCorrect "q") ∧
      (BuildError.noCorrect "q").exitCode = 0) :=
  ⟨rfl, C9_fatal_aborts_without_output_status_zero _ _ _ _ _ _ rfl⟩

/-- C10.  Every successfully built choice-format Question has each of its
correct indexes strictly below the length of its displayed answer list: the
indexes are computed on the pre-strip list, and marker stripping preserves
the length and order of the list. -/
theorem C10_correct_indexes_in_range (mkd : String → String)
    (shuffleA : List String → List String) (sa rc : Bool) (c : Nat) (d : Doc) (q : Question)
    (h : build_question mkd shuffleA sa rc c d = Except.ok q) (hfmt : q.format = "choice") :
    ∃ answers correct, q.answers = some answers ∧ q.correct = some correct ∧
      ∀ i ∈ correct, i < answers.length := by
  simp only [build_question] at h
  split at h
  · simp at h
  · split at h
    · rw [Except.ok.injEq] at h
      rw [← h] at hfmt
      simp at hfmt
    · split at h
      · rw [Except.ok.injEq] at h
        rw [← h] at hfmt
        simp at hfmt
      · split at h <;> split at h <;>
          first
            | (rw [Except.ok.injEq] at h
               refine ⟨_, _, by rw [← h], by rw [← h], ?_⟩
               intro i hi
               rw [strip_keys_length]
               exact get_indexes_mem_lt _ i hi)
            | simp at h

/-- Witness for C10: a concrete two-answer choice question whose single
correct index 0 is below the displayed answer count 2. -/
theorem C10_witness :
    build_question (fun s => s) (fun l => l) false true 0
        (Doc.mk (some "q") none (some [Y.str "+a", Y.str "b"])) =
      Except.ok (Question.mk 1 "q" "" (some ["a", "b"]) (some [0]) "choice") ∧
    ∃ answers correct,
      (Question.mk 1 "q" "" (some ["a", "b"]) (some [0]) "choice").answers = some answers ∧
      (Question.mk 1 "q" "" (some ["a", "b"]) (some [0]) "choice").correct = some correct ∧
      ∀ i ∈ correct, i < answers.length :=
  ⟨rfl, C10_correct_indexes_in_range (fun s => s) (fun l => l) false true 0
    (Doc.mk (some "q") none (some [Y.str "+a", Y.str "b"]))
    (Question.mk 1 "q" "" (some ["a", "b"]) (some [0]) "choice") rfl rfl⟩
